import Mathlib

set_option maxHeartbeats 1000000

/-!
Verification of the coderr-backend domain validation layer
(`src/coderr_app/api/serializer.py`) against its specification.

The serializers are shallowly embedded: each serializer's `validate` method
and its create/update write path become pure Lean functions over explicit
entity-row types.  Database writes (`Model.objects.create`, `instance.save()`)
are modelled by threading the affected rows explicitly, so that a raised
`ValidationError` in the middle of a write path leaves exactly the rows that
were already saved — matching Django semantics, where each `save()` commits
independently unless an enclosing transaction exists (none does in the
serializer module).  Python truthiness tests and set operations are translated
to the corresponding decidable propositions on lists.
-/

namespace Coderr

/-- Tier labels for `OfferDetail.offer_type` (the model field's choice set;
invalid choices are rejected by DRF field validation before `validate` runs,
so embedded data always carries one of the three labels). -/
inductive OfferType
  | basic
  | standard
  | premium
deriving DecidableEq, Repr, Fintype

/-- Exception classes of `rest_framework.exceptions` relevant here, plus the
`conflict` kind the specification's error taxonomy postulates.  The class of
the raised exception determines the HTTP status DRF returns. -/
inductive DrfClass
  | validationError
  | notFound
  | permissionDenied
  | conflict
deriving DecidableEq, Repr

/-- Default `status_code` of each DRF exception class (409 for the conflict
kind the specification postulates). -/
def DrfClass.statusCode : DrfClass → Nat
  | .validationError => 400
  | .notFound => 404
  | .permissionDenied => 403
  | .conflict => 409

/-- One constructor per distinct `raise serializers.ValidationError(...)` site
in `serializer.py`, in source order.  Payload-carrying constructors record the
context interpolated into the message (offending offer_type, field names). -/
inductive SerError
  | wrongDetailCount
  | duplicateOrMissingTier
  | missingOfferType
  | duplicateOfferType
  | detailNotExist (t : OfferType)
  | orderForbiddenFields (fields : List String)
  | orderNoData
  | targetNotBusiness
  | alreadyReviewed
  | reviewForbiddenFields (fields : List String)
  | ratingOutOfRange
  | emptyDescription
deriving DecidableEq, Repr

/-- Exception class used at each raise site: every error in `serializer.py`
is raised as `serializers.ValidationError` (the only exception class the
module raises). -/
def SerError.drfClass : SerError → DrfClass
  | .wrongDetailCount => .validationError
  | .duplicateOrMissingTier => .validationError
  | .missingOfferType => .validationError
  | .duplicateOfferType => .validationError
  | .detailNotExist _ => .validationError
  | .orderForbiddenFields _ => .validationError
  | .orderNoData => .validationError
  | .targetNotBusiness => .validationError
  | .alreadyReviewed => .validationError
  | .reviewForbiddenFields _ => .validationError
  | .ratingOutOfRange => .validationError
  | .emptyDescription => .validationError

/-- Persisted OfferDetail row (fields of `OfferDetail` used by the
serializers; `id` is the auto primary key). -/
structure OfferDetailRow where
  id : Nat
  title : String
  revisions : Int
  delivery_time_in_days : Int
  price : Int
  features : List String
  offer_type : OfferType
deriving DecidableEq, Repr

/-- Persisted Offer row together with its owned detail rows
(`instance.details` reverse relation). -/
structure OfferRow where
  title : String
  description : String
  image : Option String
  details : List OfferDetailRow
deriving DecidableEq, Repr

/-- One entry of `validated_data` for the nested
`OfferDetailItemNestedSerializer` on creation: all fields field-validated,
`offer_type` required. -/
structure DetailCreate where
  title : String
  revisions : Int
  delivery_time_in_days : Int
  price : Int
  features : List String
  offer_type : OfferType
deriving DecidableEq, Repr

/-- Top-level `validated_data` for `OfferSerializer` on creation.  `details`
is declared `required=False`, hence optional. -/
structure OfferCreateAttrs where
  title : String
  description : String
  image : Option String
  details : Option (List DetailCreate)
deriving DecidableEq, Repr

/-- The literal `required = {'basic', 'standard', 'premium'}` set from
`OfferSerializer.validate`, as a list. -/
def requiredTypes : List OfferType := [.basic, .standard, .premium]

/-- Create branch (`self.instance is None`) of `OfferSerializer.validate`,
applied to `attrs.get('details')`: `not details or len(details) != 3` raises
the wrong-count error; then with `types = [d.get('offer_type') for d in
details]`, `set(types) != required or len(types) != len(set(types))` raises
the duplicate-or-missing-tier error (set comparison is membership
extensionality, `set(types)` size is the deduplicated length). -/
def offerCreateValidate (details : Option (List DetailCreate)) : Except SerError Unit :=
  match details with
  | none => .error .wrongDetailCount
  | some ds =>
    if ds = [] ∨ ds.length ≠ 3 then .error .wrongDetailCount
    else if ¬ (∀ t : OfferType, t ∈ ds.map (fun d => d.offer_type) ↔ t ∈ requiredTypes)
        ∨ (ds.map (fun d => d.offer_type)).length
            ≠ (ds.map (fun d => d.offer_type)).dedup.length then
      .error .duplicateOrMissingTier
    else .ok ()

/-- Row construction loop of `OfferSerializer.create`: one
`OfferDetail.objects.create(offer=offer, **detail)` per entry, primary keys
assigned consecutively from `idStart`. -/
def mkDetailRows (idStart : Nat) : List DetailCreate → List OfferDetailRow
  | [] => []
  | d :: ds =>
    { id := idStart, title := d.title, revisions := d.revisions,
      delivery_time_in_days := d.delivery_time_in_days, price := d.price,
      features := d.features, offer_type := d.offer_type }
      :: mkDetailRows (idStart + 1) ds

/-- Offer creation as run by DRF: `validate` first (a raise aborts before any
row is written), then `create` pops `details`, creates the Offer and its
detail rows.  Returns (error if any, resulting offer table). -/
def offerCreateRun (attrs : OfferCreateAttrs) (idStart : Nat)
    (store : List OfferRow) : Option SerError × List OfferRow :=
  match offerCreateValidate attrs.details, attrs.details with
  | .error e, _ => (some e, store)
  | .ok _, none => (none, store)
  | .ok _, some ds =>
    (none, store ++ [{ title := attrs.title, description := attrs.description,
                       image := attrs.image, details := mkDetailRows idStart ds }])

theorem length_eq_dedup_length_iff_nodup {α : Type} [DecidableEq α] (l : List α) :
    (l.length = l.dedup.length) ↔ l.Nodup := by
  constructor
  · intro h
    rw [← List.dedup_eq_self]
    exact (List.dedup_sublist l).eq_of_length h.symm
  · intro h
    rw [List.dedup_eq_self.mpr h]

theorem mem_requiredTypes (t : OfferType) : t ∈ requiredTypes := by
  cases t <;> simp [requiredTypes]

theorem offerCreateValidate_ok_iff (details : Option (List DetailCreate)) :
    offerCreateValidate details = .ok () ↔
      ∃ ds, details = some ds ∧ ds.length = 3 ∧
        (ds.map (fun d => d.offer_type)).Nodup ∧
        (∀ t : OfferType, t ∈ ds.map (fun d => d.offer_type)) := by
  cases details with
  | none => simp [offerCreateValidate]
  | some ds =>
    simp only [offerCreateValidate, Option.some.injEq]
    by_cases h1 : ds = [] ∨ ds.length ≠ 3
    · rw [if_pos h1]
      constructor
      · intro h; cases h
      · rintro ⟨ds2, hds2, hl, -, -⟩
        cases hds2
        rcases h1 with h1 | h1
        · subst h1; simp at hl
        · exact absurd hl h1
    · rw [if_neg h1]
      push_neg at h1
      by_cases h2 : ¬ (∀ t : OfferType, t ∈ ds.map (fun d => d.offer_type) ↔ t ∈ requiredTypes)
          ∨ (ds.map (fun d => d.offer_type)).length
              ≠ (ds.map (fun d => d.offer_type)).dedup.length
      · rw [if_pos h2]
        constructor
        · intro h; cases h
        · rintro ⟨ds2, hds2, -, hnd, hall⟩
          cases hds2
          rcases h2 with h2 | h2
          · exact absurd (fun t => ⟨fun _ => mem_requiredTypes t, fun _ => hall t⟩) h2
          · exact absurd ((length_eq_dedup_length_iff_nodup _).mpr hnd) h2
      · rw [if_neg h2]
        push_neg at h2
        refine ⟨fun _ => ⟨ds, rfl, h1.2, (length_eq_dedup_length_iff_nodup _).mp h2.2,
          fun t => (h2.1 t).mpr (mem_requiredTypes t)⟩, fun _ => rfl⟩

theorem offerCreateValidate_error_cases (details : Option (List DetailCreate))
    (e : SerError) (h : offerCreateValidate details = .error e) :
    e = SerError.wrongDetailCount ∨ e = SerError.duplicateOrMissingTier := by
  cases details with
  | none => exact Or.inl (Except.error.inj h).symm
  | some ds =>
    simp only [offerCreateValidate] at h
    by_cases h1 : ds = [] ∨ ds.length ≠ 3
    · rw [if_pos h1] at h
      exact Or.inl (Except.error.inj h).symm
    · rw [if_neg h1] at h
      by_cases h2 : ¬ (∀ t : OfferType, t ∈ ds.map (fun d => d.offer_type) ↔ t ∈ requiredTypes)
          ∨ (ds.map (fun d => d.offer_type)).length
              ≠ (ds.map (fun d => d.offer_type)).dedup.length
      · rw [if_pos h2] at h
        exact Or.inr (Except.error.inj h).symm
      · rw [if_neg h2] at h
        cases h

theorem offerCreateRun_of_error (attrs : OfferCreateAttrs) (idStart : Nat)
    (store : List OfferRow) (e : SerError)
    (hv : offerCreateValidate attrs.details = .error e) :
    offerCreateRun attrs idStart store = (some e, store) := by
  unfold offerCreateRun
  rw [hv]

theorem offerCreateRun_fst_of_ok (attrs : OfferCreateAttrs) (idStart : Nat)
    (store : List OfferRow) (hv : offerCreateValidate attrs.details = .ok ()) :
    (offerCreateRun attrs idStart store).1 = none := by
  unfold offerCreateRun
  rw [hv]
  cases hd : attrs.details <;> rfl

/-- C1: An Offer creation succeeds exactly when the proposed details list has
exactly 3 entries whose offer_type values are pairwise distinct and cover
{basic, standard, premium}; any other shape (missing list, duplicates, fewer
or more than 3 entries) fails with the wrong-detail-count or
duplicate-or-missing-tier ValidationError, and the offer table is returned
unchanged, so no Offer or OfferDetail row is persisted. -/
theorem offer_create_exactly_three_tiers (attrs : OfferCreateAttrs) (idStart : Nat)
    (store : List OfferRow) :
    ((offerCreateRun attrs idStart store).1 = none ↔
      ∃ ds, attrs.details = some ds ∧ ds.length = 3 ∧
        (ds.map (fun d => d.offer_type)).Nodup ∧
        (∀ t : OfferType, t ∈ ds.map (fun d => d.offer_type))) ∧
    ∀ e, (offerCreateRun attrs idStart store).1 = some e →
      (e = SerError.wrongDetailCount ∨ e = SerError.duplicateOrMissingTier) ∧
      (offerCreateRun attrs idStart store).2 = store := by
  constructor
  · rw [← offerCreateValidate_ok_iff]
    cases hv : offerCreateValidate attrs.details with
    | error e =>
      rw [offerCreateRun_of_error attrs idStart store e hv]
      simp
    | ok u =>
      cases u
      simp [offerCreateRun_fst_of_ok attrs idStart store hv]
  · intro e he
    cases hv : offerCreateValidate attrs.details with
    | error e2 =>
      rw [offerCreateRun_of_error attrs idStart store e2 hv] at he ⊢
      cases Option.some.inj he
      exact ⟨offerCreateValidate_error_cases attrs.details e hv, rfl⟩
    | ok u =>
      cases u
      rw [offerCreateRun_fst_of_ok attrs idStart store hv] at he
      cases he

theorem offer_create_exactly_three_tiers_witness :
    (SerError.duplicateOrMissingTier = SerError.wrongDetailCount ∨
      SerError.duplicateOrMissingTier = SerError.duplicateOrMissingTier) ∧
    (offerCreateRun
      ⟨"Logo design", "desc", none,
        some [⟨"B", 0, 1, 10, ["f"], .basic⟩, ⟨"B2", 0, 1, 20, ["f"], .basic⟩,
              ⟨"P", 0, 1, 30, ["f"], .premium⟩]⟩ 1 []).2 = [] :=
  (offer_create_exactly_three_tiers
    ⟨"Logo design", "desc", none,
      some [⟨"B", 0, 1, 10, ["f"], .basic⟩, ⟨"B2", 0, 1, 20, ["f"], .basic⟩,
            ⟨"P", 0, 1, 30, ["f"], .premium⟩]⟩ 1 []).2
    SerError.duplicateOrMissingTier (by decide)

/-- Scalar part of `validated_data` for `OfferSerializer.update` (fields may
be absent from a partial payload; `image` may also carry an explicit null). -/
structure OfferUpdateScalars where
  title : Option String
  description : Option String
  image : Option (Option String)
deriving DecidableEq, Repr

/-- One entry of `validated_data['details']` on update: a partial patch of one
child; `offer_type` may be absent, in which case `validate` rejects the
payload. -/
structure DetailPatch where
  offer_type : Option OfferType
  title : Option String
  revisions : Option Int
  delivery_time_in_days : Option Int
  price : Option Int
  features : Option (List String)
deriving DecidableEq, Repr

/-- Update branch (`self.instance is not None`) of `OfferSerializer.validate`:
when a non-empty details list is supplied, every entry must contain
`offer_type`, and the supplied offer_type values must not repeat
(`len(types) != len(set(types))`). -/
def offerUpdateValidate (details : Option (List DetailPatch)) : Except SerError Unit :=
  match details with
  | none => .ok ()
  | some ds =>
    if ds = [] then .ok ()
    else if ∃ d ∈ ds, d.offer_type = none then .error .missingOfferType
    else if (ds.map (fun d => d.offer_type)).length
        ≠ (ds.map (fun d => d.offer_type)).dedup.length then
      .error .duplicateOfferType
    else .ok ()

/-- Scalar assignments of `OfferSerializer.update` followed by
`instance.save()`: `validated_data.get(field, current_value)`. -/
def applyScalars (inst : OfferRow) (v : OfferUpdateScalars) : OfferRow :=
  { inst with
    title := v.title.getD inst.title,
    description := v.description.getD inst.description,
    image := v.image.getD inst.image }

/-- Attribute loop of one detail patch: every supplied attribute except
`offer_type` (skipped by `continue`) overwrites the child's field; the child's
`id` and `offer_type` are untouched. -/
def applyDetailPatch (d : OfferDetailRow) (p : DetailPatch) : OfferDetailRow :=
  { d with
    title := p.title.getD d.title,
    revisions := p.revisions.getD d.revisions,
    delivery_time_in_days := p.delivery_time_in_days.getD d.delivery_time_in_days,
    price := p.price.getD d.price,
    features := p.features.getD d.features }

/-- Detail loop of `OfferSerializer.update`.  Each iteration resolves the
child by `instance.details.get(offer_type=...)` (with unique primary keys and
at most one child per tier this is the first matching row), applies the patch
and saves that row (replacement by primary key).  A missing child raises
`ValidationError` and aborts the loop; the second component is the detail
table as already saved at that point. -/
def runPatches : List OfferDetailRow → List DetailPatch →
    Option SerError × List OfferDetailRow
  | ds, [] => (none, ds)
  | ds, p :: ps =>
    match p.offer_type with
    | none => (some .missingOfferType, ds)
    | some t =>
      match ds.find? (fun d => decide (d.offer_type = t)) with
      | none => (some (.detailNotExist t), ds)
      | some d =>
        runPatches (ds.map (fun x => if x.id = d.id then applyDetailPatch d p else x)) ps

/-- `OfferSerializer.update` as run by DRF: the update branch of `validate`
runs first (a raise there aborts before any write), then `update` saves the
scalar fields (`instance.save()`) and only afterwards walks the detail
patches.  Returns (error if any, state of the Offer row after the saves that
happened). -/
def offerUpdate (inst : OfferRow) (scalars : OfferUpdateScalars)
    (details : Option (List DetailPatch)) : Option SerError × OfferRow :=
  match offerUpdateValidate details with
  | .error e => (some e, inst)
  | .ok _ =>
    match details with
    | none => (none, applyScalars inst scalars)
    | some ps =>
      ((runPatches (applyScalars inst scalars).details ps).1,
       { applyScalars inst scalars with
         details := (runPatches (applyScalars inst scalars).details ps).2 })

/-- Identity-relevant projection of a detail row: primary key and tier. -/
def detailKey (d : OfferDetailRow) : Nat × OfferType := (d.id, d.offer_type)

theorem replace_preserves_detailKey (ds : List OfferDetailRow) (d : OfferDetailRow)
    (p : DetailPatch) (hd : d ∈ ds) (hids : (ds.map OfferDetailRow.id).Nodup) :
    (ds.map (fun x => if x.id = d.id then applyDetailPatch d p else x)).map detailKey
      = ds.map detailKey := by
  rw [List.map_map]
  apply List.map_congr_left
  intro x hx
  simp only [Function.comp]
  by_cases hxd : x.id = d.id
  · have hxdd : x = d := List.inj_on_of_nodup_map hids hx hd hxd
    subst hxdd
    simp [detailKey, applyDetailPatch]
  · simp [hxd]

theorem map_comp_eq_of_map_eq {α β γ : Type} {f : α → β} {l1 l2 : List α}
    (h : l1.map f = l2.map f) (g : β → γ) :
    l1.map (g ∘ f) = l2.map (g ∘ f) := by
  rw [← List.map_map, ← List.map_map, h]

theorem runPatches_preserves_detailKey (ps : List DetailPatch)
    (ds : List OfferDetailRow) (hids : (ds.map OfferDetailRow.id).Nodup) :
    (runPatches ds ps).2.map detailKey = ds.map detailKey := by
  induction ps generalizing ds with
  | nil => rfl
  | cons p ps ih =>
    cases hp : p.offer_type with
    | none => simp [runPatches, hp]
    | some t =>
      cases hf : ds.find? (fun d => decide (d.offer_type = t)) with
      | none => simp [runPatches, hp, hf]
      | some d =>
        have hmem : d ∈ ds := List.mem_of_find?_eq_some hf
        have hkey := replace_preserves_detailKey ds d p hmem hids
        have hids2 : ((ds.map (fun x => if x.id = d.id then applyDetailPatch d p else x)).map
            OfferDetailRow.id).Nodup := by
          have h1 : (ds.map (fun x => if x.id = d.id then applyDetailPatch d p else x)).map
              OfferDetailRow.id = ds.map OfferDetailRow.id :=
            map_comp_eq_of_map_eq hkey Prod.fst
          rw [h1]
          exact hids
        simp only [runPatches, hp, hf]
        rw [ih _ hids2, hkey]

/-- C2: An Offer update never adds a child, removes a child, or changes any
child's offer_type: whatever scalar fields and detail patches are supplied
(and whether the update succeeds or fails), the list of (primary key,
offer_type) pairs of the Offer's children is unchanged, and in particular the
set of offer_type values after the update equals the set before. -/
theorem offer_update_preserves_detail_types (inst : OfferRow)
    (scalars : OfferUpdateScalars) (details : Option (List DetailPatch))
    (hids : (inst.details.map OfferDetailRow.id).Nodup) :
    (offerUpdate inst scalars details).2.details.map detailKey
        = inst.details.map detailKey ∧
    ∀ t : OfferType,
      (t ∈ (offerUpdate inst scalars details).2.details.map
        (fun d => d.offer_type) ↔ t ∈ inst.details.map (fun d => d.offer_type)) := by
  have hmain : (offerUpdate inst scalars details).2.details.map detailKey
      = inst.details.map detailKey := by
    unfold offerUpdate
    cases hv : offerUpdateValidate details with
    | error e => rfl
    | ok u =>
      cases u
      cases details with
      | none => rfl
      | some ps =>
        have : (applyScalars inst scalars).details = inst.details := rfl
        simp only [this]
        exact runPatches_preserves_detailKey ps inst.details hids
  refine ⟨hmain, fun t => ?_⟩
  have hsnd := congrArg (List.map Prod.snd) hmain
  rw [List.map_map, List.map_map] at hsnd
  have hcomp : (Prod.snd ∘ detailKey) = (fun d : OfferDetailRow => d.offer_type) := rfl
  rw [hcomp] at hsnd
  rw [hsnd]

theorem offer_update_preserves_detail_types_witness :
    (offerUpdate
        ⟨"Logo", "d", none,
          [⟨1, "B", 0, 1, 10, ["f"], .basic⟩, ⟨2, "S", 0, 2, 20, ["f"], .standard⟩,
           ⟨3, "P", 0, 3, 30, ["f"], .premium⟩]⟩
        ⟨some "New", none, none⟩
        (some [⟨some .standard, none, none, none, some 50, none⟩])).2.details.map detailKey
      = [⟨1, "B", 0, 1, 10, ["f"], .basic⟩, ⟨2, "S", 0, 2, 20, ["f"], .standard⟩,
         ⟨3, "P", 0, 3, 30, ["f"], .premium⟩].map detailKey :=
  (offer_update_preserves_detail_types
    ⟨"Logo", "d", none,
      [⟨1, "B", 0, 1, 10, ["f"], .basic⟩, ⟨2, "S", 0, 2, 20, ["f"], .standard⟩,
       ⟨3, "P", 0, 3, 30, ["f"], .premium⟩]⟩
    ⟨some "New", none, none⟩
    (some [⟨some .standard, none, none, none, some 50, none⟩])
    (by decide)).1

theorem replace_preserves_offer_types (ds : List OfferDetailRow)
    (d : OfferDetailRow) (p : DetailPatch) (hd : d ∈ ds)
    (hids : (ds.map OfferDetailRow.id).Nodup) :
    (ds.map (fun x => if x.id = d.id then applyDetailPatch d p else x)).map
        (fun d => d.offer_type) = ds.map (fun d => d.offer_type) := by
  have hkey := replace_preserves_detailKey ds d p hd hids
  exact map_comp_eq_of_map_eq hkey Prod.snd

theorem forall_offer_type_transfer (l1 l2 : List OfferDetailRow)
    (h : l1.map (fun d => d.offer_type) = l2.map (fun d => d.offer_type))
    (t : OfferType) (hall : ∀ d ∈ l2, d.offer_type ≠ t) :
    ∀ d ∈ l1, d.offer_type ≠ t := by
  intro d hd heq
  have hmem : t ∈ l1.map (fun d => d.offer_type) := List.mem_map.mpr ⟨d, hd, heq⟩
  rw [h] at hmem
  rcases List.mem_map.mp hmem with ⟨d2, hd2, hd2t⟩
  exact hall d2 hd2 hd2t

theorem runPatches_unmatched_fails (ps : List DetailPatch)
    (ds : List OfferDetailRow) (hids : (ds.map OfferDetailRow.id).Nodup)
    (hsomeType : ∀ p ∈ ps, p.offer_type ≠ none)
    (hbad : ∃ p ∈ ps, ∃ t, p.offer_type = some t ∧ ∀ d ∈ ds, d.offer_type ≠ t) :
    ∃ t2, (runPatches ds ps).1 = some (SerError.detailNotExist t2) ∧
      ∀ d ∈ ds, d.offer_type ≠ t2 := by
  induction ps generalizing ds with
  | nil =>
    rcases hbad with ⟨p, hp, -⟩
    cases hp
  | cons p ps ih =>
    cases hp : p.offer_type with
    | none => exact absurd hp (hsomeType p (List.mem_cons_self p ps))
    | some t0 =>
      cases hf : ds.find? (fun d => decide (d.offer_type = t0)) with
      | none =>
        refine ⟨t0, by simp [runPatches, hp, hf], ?_⟩
        intro d hd
        have := List.find?_eq_none.mp hf d hd
        simpa using this
      | some d =>
        have hmem : d ∈ ds := List.mem_of_find?_eq_some hf
        have hdt : d.offer_type = t0 := by
          have := List.find?_some hf
          simpa using this
        have htypes := replace_preserves_offer_types ds d p hmem hids
        have hids2 : ((ds.map (fun x => if x.id = d.id then applyDetailPatch d p else x)).map
            OfferDetailRow.id).Nodup := by
          have hkey := replace_preserves_detailKey ds d p hmem hids
          have h1 : (ds.map (fun x => if x.id = d.id then applyDetailPatch d p else x)).map
              OfferDetailRow.id = ds.map OfferDetailRow.id :=
            map_comp_eq_of_map_eq hkey Prod.fst
          rw [h1]
          exact hids
        have hbad2 : ∃ q ∈ ps, ∃ t, q.offer_type = some t ∧
            ∀ d2 ∈ ds.map (fun x => if x.id = d.id then applyDetailPatch d p else x),
              d2.offer_type ≠ t := by
          rcases hbad with ⟨q, hq, t, hqt, hmiss⟩
          rcases List.mem_cons.mp hq with hq1 | hq1
          · subst hq1
            rw [hp] at hqt
            cases Option.some.inj hqt
            exact absurd hdt (hmiss d hmem)
          · exact ⟨q, hq1, t, hqt, forall_offer_type_transfer _ _ htypes t hmiss⟩
        have hsome2 : ∀ q ∈ ps, q.offer_type ≠ none :=
          fun q hq => hsomeType q (List.mem_cons_of_mem p hq)
        rcases ih _ hids2 hsome2 hbad2 with ⟨t2, hres, hmiss2⟩
        refine ⟨t2, ?_, forall_offer_type_transfer ds _ htypes.symm t2 hmiss2⟩
        simpa [runPatches, hp, hf] using hres

/-- C3 counterexample: an Offer update whose detail patch names an
offer_type with no matching child fails, yet the Offer's scalar change has
already been saved — the update is not atomic. -/
theorem offer_update_not_atomic_cex :
    ((offerUpdate
        ⟨"Logo", "d", none,
          [⟨1, "S", 0, 2, 100, ["a"], .standard⟩,
           ⟨2, "P", 0, 1, 200, ["b"], .premium⟩]⟩
        ⟨some "New title", none, none⟩
        (some [⟨some .basic, none, none, none, some 50, none⟩])).1
      = some (SerError.detailNotExist .basic)) ∧
    ((offerUpdate
        ⟨"Logo", "d", none,
          [⟨1, "S", 0, 2, 100, ["a"], .standard⟩,
           ⟨2, "P", 0, 1, 200, ["b"], .premium⟩]⟩
        ⟨some "New title", none, none⟩
        (some [⟨some .basic, none, none, none, some 50, none⟩])).2.title
      = "New title") ∧
    ("New title" : String) ≠ "Logo" := by decide

/-- C3 (amended): An Offer update is all-or-nothing only through the
validation stage: an error raised by `validate` (missing or duplicate
offer_type) leaves the Offer and its details entirely unchanged, but once
validation passes the scalar fields (title, description, image) are saved
before the detail patches are processed, so a failing detail patch leaves
the already-saved scalar changes in place. -/
theorem offer_update_scalar_saved_before_patches (inst : OfferRow)
    (scalars : OfferUpdateScalars) (details : Option (List DetailPatch)) :
    (∀ e, offerUpdateValidate details = .error e →
      offerUpdate inst scalars details = (some e, inst)) ∧
    (offerUpdateValidate details = .ok () →
      ((offerUpdate inst scalars details).2.title = (applyScalars inst scalars).title ∧
       (offerUpdate inst scalars details).2.description
          = (applyScalars inst scalars).description ∧
       (offerUpdate inst scalars details).2.image
          = (applyScalars inst scalars).image)) := by
  constructor
  · intro e hv
    unfold offerUpdate
    rw [hv]
  · intro hv
    unfold offerUpdate
    rw [hv]
    cases details with
    | none => exact ⟨rfl, rfl, rfl⟩
    | some ps => exact ⟨rfl, rfl, rfl⟩

theorem offer_update_scalar_saved_before_patches_witness :
    (offerUpdate ⟨"L", "d", none, []⟩ ⟨some "T", none, none⟩
        (some [⟨none, none, none, none, none, none⟩])
      = (some SerError.missingOfferType, ⟨"L", "d", none, []⟩)) ∧
    ((offerUpdate ⟨"L", "d", none, []⟩ ⟨some "T", none, none⟩ none).2.title
      = (applyScalars ⟨"L", "d", none, []⟩ ⟨some "T", none, none⟩).title) :=
  ⟨(offer_update_scalar_saved_before_patches ⟨"L", "d", none, []⟩
      ⟨some "T", none, none⟩ (some [⟨none, none, none, none, none, none⟩])).1
      SerError.missingOfferType rfl,
   ((offer_update_scalar_saved_before_patches ⟨"L", "d", none, []⟩
      ⟨some "T", none, none⟩ none).2 rfl).1⟩

/-- C7 counterexample: a detail patch naming an offer_type with no matching
child is rejected by `serializers.ValidationError` (HTTP 400), not by a
NotFound-class error (HTTP 404), so the claimed error kind is wrong. -/
theorem offer_update_detail_not_found_kind_cex :
    ((offerUpdate
        ⟨"L", "d", none,
          [⟨1, "S", 0, 2, 100, ["a"], .standard⟩,
           ⟨2, "P", 0, 1, 200, ["b"], .premium⟩]⟩
        ⟨none, none, none⟩
        (some [⟨some .basic, none, none, none, some 50, none⟩])).1
      = some (SerError.detailNotExist .basic)) ∧
    (SerError.detailNotExist .basic).drfClass = DrfClass.validationError ∧
    (SerError.detailNotExist .basic).drfClass ≠ DrfClass.notFound ∧
    (SerError.detailNotExist .basic).drfClass.statusCode = 400 := by decide

/-- C7 (amended): An Offer update containing a detail patch whose offer_type
matches no existing child fails, identifying an unmatched offer_type value,
with the error raised as a `serializers.ValidationError` — a validation-class
error, not a NotFound-class one. -/
theorem offer_update_unmatched_tier_validation_error (inst : OfferRow)
    (scalars : OfferUpdateScalars) (ps : List DetailPatch)
    (hids : (inst.details.map OfferDetailRow.id).Nodup)
    (hv : offerUpdateValidate (some ps) = .ok ())
    (hbad : ∃ p ∈ ps, ∃ t, p.offer_type = some t ∧
      ∀ d ∈ inst.details, d.offer_type ≠ t) :
    ∃ t2, (offerUpdate inst scalars (some ps)).1
        = some (SerError.detailNotExist t2) ∧
      (∀ d ∈ inst.details, d.offer_type ≠ t2) ∧
      (SerError.detailNotExist t2).drfClass = DrfClass.validationError := by
  have hsomeType : ∀ p ∈ ps, p.offer_type ≠ none := by
    intro p hp hnone
    by_cases hemp : ps = []
    · subst hemp; cases hp
    · simp only [offerUpdateValidate] at hv
      rw [if_neg hemp] at hv
      by_cases hex : ∃ d ∈ ps, d.offer_type = none
      · rw [if_pos hex] at hv; cases hv
      · exact hex ⟨p, hp, hnone⟩
  rcases runPatches_unmatched_fails ps inst.details hids hsomeType hbad
    with ⟨t2, hres, hmiss⟩
  refine ⟨t2, ?_, hmiss, rfl⟩
  unfold offerUpdate
  rw [hv]
  exact hres

theorem offer_update_unmatched_tier_validation_error_witness :
    (offerUpdate
        ⟨"L", "d", none,
          [⟨1, "S", 0, 2, 100, ["a"], .standard⟩,
           ⟨2, "P", 0, 1, 200, ["b"], .premium⟩]⟩
        ⟨none, none, none⟩
        (some [⟨some .basic, none, none, none, some 50, none⟩])).1 ≠ none := by
  rcases offer_update_unmatched_tier_validation_error
      ⟨"L", "d", none,
        [⟨1, "S", 0, 2, 100, ["a"], .standard⟩,
         ⟨2, "P", 0, 1, 200, ["b"], .premium⟩]⟩
      ⟨none, none, none⟩
      [⟨some .basic, none, none, none, some 50, none⟩]
      (by decide) rfl
      ⟨⟨some .basic, none, none, none, some 50, none⟩, by decide, .basic, rfl, by decide⟩
    with ⟨t2, h, -, -⟩
  rw [h]
  simp

/-- Modelled from the spec: `Order.STATUS_CHOICES` (the Order model module is
not among the sources); section 3 and 4.3 of the spec give the label set
pending, in_progress, completed, cancelled. -/
inductive OrderStatus
  | pending
  | in_progress
  | completed
  | cancelled
deriving DecidableEq, Repr

/-- Persisted Order row: the serializer takes `offer_detail_id` (write only)
and the Order keeps a foreign key to the OfferDetail; no commercial-terms
column exists on the Order itself. -/
structure OrderRow where
  id : Nat
  customer_user : Nat
  business_user : Nat
  status : OrderStatus
  offer_detail_id : Nat
deriving DecidableEq, Repr

/-- The read-only commercial-terms block `OrderSerializer` exposes. -/
structure OrderTermsOut where
  title : String
  revisions : Int
  delivery_time_in_days : Int
  price : Int
  features : List String
  offer_type : OfferType
deriving DecidableEq, Repr

/-- Read projection of `OrderSerializer`: every commercial field is declared
with `source='offer_detail.<field>'`, so it is read from the currently
referenced OfferDetail row at serialization time (the foreign-key dereference
is modelled as a lookup by primary key in the detail table). -/
def serializeOrderTerms (details : List OfferDetailRow) (o : OrderRow) :
    Option OrderTermsOut :=
  (details.find? (fun d => decide (d.id = o.offer_detail_id))).map (fun d =>
    { title := d.title, revisions := d.revisions,
      delivery_time_in_days := d.delivery_time_in_days, price := d.price,
      features := d.features, offer_type := d.offer_type })

/-- C4 counterexample: the commercial-terms fields exposed on an Order are
not a creation-time snapshot: editing the referenced OfferDetail through the
repository's own Offer-update path changes what the Order serializer
returns. -/
theorem order_terms_not_snapshot_cex :
    (serializeOrderTerms
        ([⟨7, "Basic", 0, 3, 100, ["x"], .basic⟩,
          ⟨8, "Std", 0, 2, 200, ["y"], .standard⟩,
          ⟨9, "Prem", 0, 1, 300, ["z"], .premium⟩] : List OfferDetailRow)
        ⟨1, 10, 20, .pending, 7⟩
      ≠ serializeOrderTerms
        (offerUpdate
          ⟨"Logo", "d", none,
            [⟨7, "Basic", 0, 3, 100, ["x"], .basic⟩,
             ⟨8, "Std", 0, 2, 200, ["y"], .standard⟩,
             ⟨9, "Prem", 0, 1, 300, ["z"], .premium⟩]⟩
          ⟨none, none, none⟩
          (some [⟨some .basic, none, none, none, some 999, none⟩])).2.details
        ⟨1, 10, 20, .pending, 7⟩) ∧
    (offerUpdate
        ⟨"Logo", "d", none,
          [⟨7, "Basic", 0, 3, 100, ["x"], .basic⟩,
           ⟨8, "Std", 0, 2, 200, ["y"], .standard⟩,
           ⟨9, "Prem", 0, 1, 300, ["z"], .premium⟩]⟩
        ⟨none, none, none⟩
        (some [⟨some .basic, none, none, none, some 999, none⟩])).1 = none := by
  decide

/-- C4 (amended): the commercial-terms fields exposed on an Order are live
reads through the `offer_detail` reference: whenever the referenced
OfferDetail row is found, the serialized fields equal that row's current
field values (and therefore change when the row is edited). -/
theorem order_terms_live_read (details : List OfferDetailRow) (o : OrderRow)
    (d : OfferDetailRow)
    (h : details.find? (fun x => decide (x.id = o.offer_detail_id)) = some d) :
    serializeOrderTerms details o =
      some { title := d.title, revisions := d.revisions,
             delivery_time_in_days := d.delivery_time_in_days, price := d.price,
             features := d.features, offer_type := d.offer_type } := by
  unfold serializeOrderTerms
  rw [h]
  rfl

theorem order_terms_live_read_witness :
    serializeOrderTerms
        ([⟨7, "Basic", 0, 3, 100, ["x"], .basic⟩] : List OfferDetailRow)
        ⟨1, 10, 20, .pending, 7⟩
      = some ⟨"Basic", 0, 3, 100, ["x"], .basic⟩ :=
  order_terms_live_read [⟨7, "Basic", 0, 3, 100, ["x"], .basic⟩]
    ⟨1, 10, 20, .pending, 7⟩ ⟨7, "Basic", 0, 3, 100, ["x"], .basic⟩ rfl

/-- Raw PATCH payload for the order-status endpoint: the (field-validated)
status value when the `status` key is supplied, and the remaining payload
keys — read-only fields such as `price`, or undeclared keys. -/
structure OrderPatchPayload where
  statusVal : Option OrderStatus
  extraKeys : List String
deriving DecidableEq, Repr

/-- DRF `to_internal_value` for `OrderStatusUpdateSerializer`: the `attrs`
dict handed to `validate` is built from the writable fields only.  `status`
is the sole writable field — every other declared field is listed in
`read_only_fields` and undeclared payload keys are ignored — so all
non-status payload keys are dropped here and never reach `validate`. -/
def orderToInternalValue (p : OrderPatchPayload) : Option OrderStatus :=
  p.statusVal

/-- Keys of the validated `attrs` dict: `status` when present, nothing
else (no other writable field exists on the serializer). -/
def orderAttrsKeys : Option OrderStatus → List String
  | some _ => ["status"]
  | none => []

/-- `OrderStatusUpdateSerializer.validate` over the attrs dict it actually
receives: `allowed = {'status'}`, `forbidden = set(attrs.keys()) - allowed`,
raising the forbidden-fields error when non-empty; then `if not attrs`
raises the no-data error.  Since attrs can only carry the status key, the
forbidden set is always empty. -/
def orderStatusValidate (attrs : Option OrderStatus) : Except SerError Unit :=
  if (orderAttrsKeys attrs).filter (fun k => decide (k ≠ "status")) ≠ [] then
    .error (.orderForbiddenFields
      ((orderAttrsKeys attrs).filter (fun k => decide (k ≠ "status"))))
  else if orderAttrsKeys attrs = [] then .error .orderNoData
  else .ok ()

/-- Order status patch as run by DRF: `to_internal_value` (dropping the
non-writable keys), then `validate` (a raise aborts before any write), then
the model-serializer update writes the validated fields — only `status` —
and saves.  Returns (error if any, resulting Order row). -/
def orderStatusPatchRun (o : OrderRow) (p : OrderPatchPayload) :
    Option SerError × OrderRow :=
  match orderStatusValidate (orderToInternalValue p) with
  | .error e => (some e, o)
  | .ok _ => (none, { o with status := (orderToInternalValue p).getD o.status })

/-- C5: The claim fails on the code.  At the failing input — a payload
supplying status completed together with the read-only key price — the
non-status key is dropped during field deserialization, validation succeeds
and the status is written: no forbidden-fields rejection occurs.  On every
attrs dict the serializer can build, the only raisable error is the no-data
one, so the forbidden-fields raise in `validate` is unreachable dead code.
The empty-payload half of the claim does hold: an empty payload is rejected
with the no-data error before any write, leaving the Order unchanged. -/
theorem order_status_forbidden_fields_unreachable :
    (orderStatusPatchRun ⟨1, 10, 20, .pending, 7⟩ ⟨some .completed, ["price"]⟩
      = (none, ⟨1, 10, 20, .completed, 7⟩)) ∧
    (∀ attrs : Option OrderStatus,
      orderStatusValidate attrs = .error .orderNoData ∨
      orderStatusValidate attrs = .ok ()) ∧
    (orderStatusPatchRun ⟨1, 10, 20, .pending, 7⟩ ⟨none, []⟩
      = (some .orderNoData, ⟨1, 10, 20, .pending, 7⟩)) := by
  refine ⟨rfl, ?_, rfl⟩
  intro attrs
  cases attrs with
  | none => exact Or.inl rfl
  | some st => exact Or.inr rfl

/-- Profile type choice set of the auth-app Profile model. -/
inductive ProfileType
  | business
  | customer
deriving DecidableEq, Repr

/-- Profile row: owning user's primary key and the profile type, reached in
the serializer as `business_user.profile.type`. -/
structure ProfileRow where
  user_id : Nat
  type : ProfileType
deriving DecidableEq, Repr

/-- Persisted Review row. -/
structure ReviewRow where
  reviewer : Nat
  business_user : Nat
  rating : Int
  description : String
deriving DecidableEq, Repr

/-- `ReviewSerializer.validate`: the target must have a profile of type
business (`not hasattr(business_user, "profile") or
business_user.profile.type != "business"` raises); then, only when the
request carries an authenticated user (`if user and ...`), an existing
Review with the same (reviewer, business_user) pair is rejected. -/
def reviewValidate (user : Option Nat) (business_user : Nat)
    (profiles : List ProfileRow) (reviews : List ReviewRow) : Except SerError Unit :=
  match profiles.find? (fun pr => decide (pr.user_id = business_user)) with
  | none => .error .targetNotBusiness
  | some pr =>
    if pr.type ≠ .business then .error .targetNotBusiness
    else
      match user with
      | some u =>
        if ∃ r ∈ reviews, r.reviewer = u ∧ r.business_user = business_user then
          .error .alreadyReviewed
        else .ok ()
      | none => .ok ()

/-- Declared field validators on `ReviewSerializer`:
`rating = IntegerField(min_value=1, max_value=5)` and
`description = CharField()`, which rejects a blank value.  (DRF also strips
surrounding whitespace before the blank check; that normalisation is not
modelled — the claims only distinguish empty from non-empty.)  DRF runs the
field validators before `validate` and collects the failures in field
order. -/
def reviewFieldErrors (rating : Int) (description : String) : List SerError :=
  (if rating < 1 ∨ 5 < rating then [SerError.ratingOutOfRange] else []) ++
  (if description = "" then [SerError.emptyDescription] else [])

/-- Writable payload of a Review creation (all fields required). -/
structure ReviewCreateInput where
  business_user : Nat
  rating : Int
  description : String
deriving DecidableEq, Repr

/-- Review creation as run by DRF: field validation, then
`ReviewSerializer.validate`, then the row is inserted with `reviewer` set
from the authenticated request user (the view calls
`serializer.save(reviewer=request.user)`).  Any error leaves the review
table unchanged. -/
def reviewCreateRun (user : Nat) (inp : ReviewCreateInput)
    (profiles : List ProfileRow) (reviews : List ReviewRow) :
    Option (List SerError) × List ReviewRow :=
  match reviewFieldErrors inp.rating inp.description with
  | [] =>
    match reviewValidate (some user) inp.business_user profiles reviews with
    | .error e => (some [e], reviews)
    | .ok _ =>
      (none, reviews ++ [⟨user, inp.business_user, inp.rating, inp.description⟩])
  | es => (some es, reviews)

theorem reviewValidate_of_find_none (user : Option Nat) (business_user : Nat)
    (profiles : List ProfileRow) (reviews : List ReviewRow)
    (hf : profiles.find? (fun pr => decide (pr.user_id = business_user)) = none) :
    reviewValidate user business_user profiles reviews
      = .error .targetNotBusiness := by
  simp [reviewValidate, hf]

theorem reviewValidate_of_not_business (user : Option Nat) (business_user : Nat)
    (profiles : List ProfileRow) (reviews : List ReviewRow) (pr : ProfileRow)
    (hf : profiles.find? (fun q => decide (q.user_id = business_user)) = some pr)
    (ht : pr.type ≠ .business) :
    reviewValidate user business_user profiles reviews
      = .error .targetNotBusiness := by
  simp [reviewValidate, hf, ht]

theorem reviewValidate_of_dup (u : Nat) (business_user : Nat)
    (profiles : List ProfileRow) (reviews : List ReviewRow) (pr : ProfileRow)
    (hf : profiles.find? (fun q => decide (q.user_id = business_user)) = some pr)
    (ht : pr.type = .business)
    (hdup : ∃ r ∈ reviews, r.reviewer = u ∧ r.business_user = business_user) :
    reviewValidate (some u) business_user profiles reviews
      = .error .alreadyReviewed := by
  simp [reviewValidate, hf, ht, hdup]

theorem reviewCreateRun_of_fieldErrors_ne (user : Nat) (inp : ReviewCreateInput)
    (profiles : List ProfileRow) (reviews : List ReviewRow)
    (h : reviewFieldErrors inp.rating inp.description ≠ []) :
    reviewCreateRun user inp profiles reviews
      = (some (reviewFieldErrors inp.rating inp.description), reviews) := by
  cases hfe : reviewFieldErrors inp.rating inp.description with
  | nil => exact absurd hfe h
  | cons e es => simp [reviewCreateRun, hfe]

theorem reviewCreateRun_of_validate_error (user : Nat) (inp : ReviewCreateInput)
    (profiles : List ProfileRow) (reviews : List ReviewRow) (e : SerError)
    (hfe : reviewFieldErrors inp.rating inp.description = [])
    (hv : reviewValidate (some user) inp.business_user profiles reviews = .error e) :
    reviewCreateRun user inp profiles reviews = (some [e], reviews) := by
  simp [reviewCreateRun, hfe, hv]

/-- C6 counterexample: a duplicate Review creation is rejected by
`serializers.ValidationError` (HTTP 400), not by a Conflict-kind error
(HTTP 409) as the claim states. -/
theorem review_duplicate_error_class_cex :
    reviewValidate (some 10) 20 [⟨20, .business⟩] [⟨10, 20, 4, "good"⟩]
      = .error .alreadyReviewed ∧
    SerError.alreadyReviewed.drfClass = DrfClass.validationError ∧
    SerError.alreadyReviewed.drfClass ≠ DrfClass.conflict ∧
    SerError.alreadyReviewed.drfClass.statusCode = 400 :=
  ⟨rfl, rfl, by decide, rfl⟩

/-- C6 (amended): at most one Review per (reviewer, business_user) pair is
enforced at creation: when a Review by the authenticated reviewer for the
target already exists, creation always fails — with the already-reviewed
ValidationError whenever the field values are valid and the target resolves
to a business profile — and no second Review row is written. -/
theorem review_duplicate_rejected (user : Nat) (inp : ReviewCreateInput)
    (profiles : List ProfileRow) (reviews : List ReviewRow)
    (hdup : ∃ r ∈ reviews, r.reviewer = user ∧ r.business_user = inp.business_user) :
    (reviewCreateRun user inp profiles reviews).2 = reviews ∧
    (reviewCreateRun user inp profiles reviews).1 ≠ none ∧
    (reviewFieldErrors inp.rating inp.description = [] →
      ∀ pr, profiles.find? (fun q => decide (q.user_id = inp.business_user)) = some pr →
        pr.type = .business →
        (reviewCreateRun user inp profiles reviews).1
          = some [SerError.alreadyReviewed]) := by
  by_cases hfe : reviewFieldErrors inp.rating inp.description = []
  · cases hf : profiles.find? (fun q => decide (q.user_id = inp.business_user)) with
    | none =>
      rw [reviewCreateRun_of_validate_error user inp profiles reviews _ hfe
        (reviewValidate_of_find_none _ _ _ _ hf)]
      refine ⟨rfl, by simp, ?_⟩
      intro _ pr hpr
      cases hpr
    | some pr =>
      by_cases ht : pr.type = .business
      · rw [reviewCreateRun_of_validate_error user inp profiles reviews _ hfe
          (reviewValidate_of_dup user inp.business_user profiles reviews pr hf ht hdup)]
        exact ⟨rfl, by simp, fun _ pr2 hpr2 _ => rfl⟩
      · rw [reviewCreateRun_of_validate_error user inp profiles reviews _ hfe
          (reviewValidate_of_not_business (some user) inp.business_user profiles
            reviews pr hf ht)]
        refine ⟨rfl, by simp, ?_⟩
        intro _ pr2 hpr2 htype2
        cases Option.some.inj hpr2
        exact absurd htype2 ht
  · rw [reviewCreateRun_of_fieldErrors_ne user inp profiles reviews hfe]
    refine ⟨rfl, by simp, ?_⟩
    intro h
    exact absurd h hfe

theorem review_duplicate_rejected_witness :
    (reviewCreateRun 10 ⟨20, 4, "good"⟩ [⟨20, .business⟩] [⟨10, 20, 5, "old"⟩]).1
      = some [SerError.alreadyReviewed] :=
  (review_duplicate_rejected 10 ⟨20, 4, "good"⟩ [⟨20, .business⟩]
      [⟨10, 20, 5, "old"⟩]
      ⟨⟨10, 20, 5, "old"⟩, by decide, rfl, rfl⟩).2.2 (by decide)
    ⟨20, .business⟩ rfl rfl

/-- C10: When the serializer context carries no authenticated user
(`getattr(request, "user", None)` resolves to None), the duplicate-review
lookup is skipped because `if user and ...` short-circuits: validation
succeeds for a business-typed target whatever the existing review table
contains, including a table that already holds a review by some reviewer for
that same target. -/
theorem review_validate_no_user_skips_duplicate_check (business_user : Nat)
    (profiles : List ProfileRow) (reviews : List ReviewRow) (pr : ProfileRow)
    (hfind : profiles.find? (fun q => decide (q.user_id = business_user)) = some pr)
    (htype : pr.type = .business) :
    reviewValidate none business_user profiles reviews = .ok () := by
  simp [reviewValidate, hfind, htype]

theorem review_validate_no_user_skips_duplicate_check_witness :
    reviewValidate none 20 [⟨20, .business⟩] [⟨10, 20, 4, "x"⟩] = .ok () :=
  review_validate_no_user_skips_duplicate_check 20 [⟨20, .business⟩]
    [⟨10, 20, 4, "x"⟩] ⟨20, .business⟩ rfl rfl

/-- Validators applied to the fields supplied in a partial Review patch: the
same declared field validators as on creation (inherited from
`ReviewSerializer`), applied only to the supplied fields. -/
def reviewPatchFieldErrors (rating : Option Int) (description : Option String) :
    List SerError :=
  (match rating with
   | some x => if x < 1 ∨ 5 < x then [SerError.ratingOutOfRange] else []
   | none => []) ++
  (match description with
   | some s => if s = "" then [SerError.emptyDescription] else []
   | none => [])

/-- Payload of a Review patch: the raw payload keys (`self.initial_data`)
and the validated writable field values supplied. -/
structure ReviewPatchInput where
  initialKeys : List String
  rating : Option Int
  description : Option String
deriving DecidableEq, Repr

/-- `ReviewPatchSerializer.validate`: the raw payload keys are intersected
with the identity-field set {business_user, reviewer}; a non-empty
intersection is rejected with the forbidden-fields error naming the
offending keys in sorted order. -/
def reviewPatchValidate (initialKeys : List String) : Except SerError Unit :=
  if (["business_user", "reviewer"].filter
      (fun k => decide (k ∈ initialKeys))) ≠ [] then
    .error (.reviewForbiddenFields
      (["business_user", "reviewer"].filter (fun k => decide (k ∈ initialKeys))))
  else .ok ()

/-- Review patch as run by DRF: field validation of the supplied fields,
then `ReviewPatchSerializer.validate`; on success only rating and
description are written (`business_user` and `reviewer` are declared
read-only in the patch serializer).  Any error leaves the row unchanged. -/
def reviewPatchRun (rev : ReviewRow) (inp : ReviewPatchInput) :
    Option (List SerError) × ReviewRow :=
  match reviewPatchFieldErrors inp.rating inp.description with
  | [] =>
    match reviewPatchValidate inp.initialKeys with
    | .error e => (some [e], rev)
    | .ok _ =>
      (none,
       { rev with
         rating := inp.rating.getD rev.rating,
         description := inp.description.getD rev.description })
  | es => (some es, rev)

theorem reviewFieldErrors_eq_nil_iff (x : Int) (d : String) :
    reviewFieldErrors x d = [] ↔ (1 ≤ x ∧ x ≤ 5 ∧ d ≠ "") := by
  by_cases hx : x < 1 ∨ 5 < x <;> by_cases hd : d = "" <;>
    simp [reviewFieldErrors, hx, hd] <;> omega

theorem reviewPatchFieldErrors_eq_nil_iff (r : Option Int) (s : Option String) :
    reviewPatchFieldErrors r s = [] ↔
      ((∀ x, r = some x → 1 ≤ x ∧ x ≤ 5) ∧ (∀ d, s = some d → d ≠ "")) := by
  cases r with
  | none =>
    cases s with
    | none => simp [reviewPatchFieldErrors]
    | some d =>
      by_cases hd : d = "" <;> simp [reviewPatchFieldErrors, hd]
  | some x =>
    cases s with
    | none =>
      by_cases hx : x < 1 ∨ 5 < x <;> simp [reviewPatchFieldErrors, hx] <;> omega
    | some d =>
      by_cases hx : x < 1 ∨ 5 < x <;> by_cases hd : d = "" <;>
        simp [reviewPatchFieldErrors, hx, hd] <;> omega

theorem reviewPatchValidate_of_clean (initialKeys : List String)
    (h1 : "business_user" ∉ initialKeys) (h2 : "reviewer" ∉ initialKeys) :
    reviewPatchValidate initialKeys = .ok () := by
  simp [reviewPatchValidate, h1, h2]

theorem reviewPatchValidate_of_forbidden (initialKeys : List String)
    (h : "business_user" ∈ initialKeys ∨ "reviewer" ∈ initialKeys) :
    reviewPatchValidate initialKeys = .error (.reviewForbiddenFields
      (["business_user", "reviewer"].filter (fun k => decide (k ∈ initialKeys)))) := by
  unfold reviewPatchValidate
  rw [if_pos]
  intro hcontra
  rcases h with h | h
  · have hmem : "business_user" ∈ ["business_user", "reviewer"].filter
        (fun k => decide (k ∈ initialKeys)) := by
      simp [List.mem_filter, h]
    rw [hcontra] at hmem
    cases hmem
  · have hmem : "reviewer" ∈ ["business_user", "reviewer"].filter
        (fun k => decide (k ∈ initialKeys)) := by
      simp [List.mem_filter, h]
    rw [hcontra] at hmem
    cases hmem

theorem reviewPatchRun_of_fieldErrors_ne (rev : ReviewRow) (inp : ReviewPatchInput)
    (h : reviewPatchFieldErrors inp.rating inp.description ≠ []) :
    reviewPatchRun rev inp
      = (some (reviewPatchFieldErrors inp.rating inp.description), rev) := by
  cases hfe : reviewPatchFieldErrors inp.rating inp.description with
  | nil => exact absurd hfe h
  | cons e es => simp [reviewPatchRun, hfe]

/-- C8: A Review patch whose raw payload contains the key business_user or
reviewer is rejected and the Review row is unchanged — with the
forbidden-fields ValidationError naming the offending keys whenever the
supplied field values are themselves valid; a payload touching neither
identity key is admitted exactly when each supplied field passes the same
bounds as creation (rating within 1..5, description non-empty), the patch
field validators being literally the creation validators applied to the
supplied fields. -/
theorem review_patch_forbidden_identity_fields (rev : ReviewRow)
    (inp : ReviewPatchInput) :
    (("business_user" ∈ inp.initialKeys ∨ "reviewer" ∈ inp.initialKeys) →
      ((reviewPatchRun rev inp).1 ≠ none ∧ (reviewPatchRun rev inp).2 = rev ∧
       (reviewPatchFieldErrors inp.rating inp.description = [] →
        (reviewPatchRun rev inp).1 = some [SerError.reviewForbiddenFields
          (["business_user", "reviewer"].filter
            (fun k => decide (k ∈ inp.initialKeys)))]))) ∧
    (("business_user" ∉ inp.initialKeys ∧ "reviewer" ∉ inp.initialKeys) →
      ((reviewPatchRun rev inp).1 = none ↔
        ((∀ x, inp.rating = some x → 1 ≤ x ∧ x ≤ 5) ∧
         (∀ s, inp.description = some s → s ≠ "")))) ∧
    (∀ x s, reviewPatchFieldErrors (some x) (some s) = reviewFieldErrors x s) := by
  refine ⟨?_, ?_, ?_⟩
  · intro hmem
    by_cases hfe : reviewPatchFieldErrors inp.rating inp.description = []
    · have hrun : reviewPatchRun rev inp = (some [SerError.reviewForbiddenFields
          (["business_user", "reviewer"].filter
            (fun k => decide (k ∈ inp.initialKeys)))], rev) := by
        simp [reviewPatchRun, hfe, reviewPatchValidate_of_forbidden inp.initialKeys hmem]
      rw [hrun]
      exact ⟨by simp, rfl, fun _ => rfl⟩
    · rw [reviewPatchRun_of_fieldErrors_ne rev inp hfe]
      refine ⟨by simp, rfl, ?_⟩
      intro h
      exact absurd h hfe
  · intro hclean
    by_cases hfe : reviewPatchFieldErrors inp.rating inp.description = []
    · have hrun : reviewPatchRun rev inp = (none,
          { rev with
            rating := inp.rating.getD rev.rating,
            description := inp.description.getD rev.description }) := by
        simp [reviewPatchRun, hfe,
          reviewPatchValidate_of_clean inp.initialKeys hclean.1 hclean.2]
      rw [hrun]
      constructor
      · intro _
        exact (reviewPatchFieldErrors_eq_nil_iff _ _).mp hfe
      · intro _
        rfl
    · rw [reviewPatchRun_of_fieldErrors_ne rev inp hfe]
      constructor
      · intro h
        simp at h
      · intro hbounds
        exact absurd ((reviewPatchFieldErrors_eq_nil_iff _ _).mpr hbounds) hfe
  · intro x s
    rfl

theorem review_patch_forbidden_identity_fields_witness :
    (reviewPatchRun ⟨10, 20, 4, "old"⟩ ⟨["business_user"], none, none⟩).1
      = some [SerError.reviewForbiddenFields ["business_user"]] :=
  ((review_patch_forbidden_identity_fields ⟨10, 20, 4, "old"⟩
      ⟨["business_user"], none, none⟩).1 (Or.inl (by decide))).2.2 rfl

theorem ratingOutOfRange_mem_create (x : Int) (d : String) (hbad : x < 1 ∨ 5 < x) :
    SerError.ratingOutOfRange ∈ reviewFieldErrors x d := by
  simp [reviewFieldErrors, hbad]

theorem emptyDescription_mem_create (x : Int) :
    SerError.emptyDescription ∈ reviewFieldErrors x "" := by
  by_cases hx : x < 1 ∨ 5 < x <;> simp [reviewFieldErrors, hx]

theorem ratingOutOfRange_mem_patch (x : Int) (d : Option String)
    (hbad : x < 1 ∨ 5 < x) :
    SerError.ratingOutOfRange ∈ reviewPatchFieldErrors (some x) d := by
  simp [reviewPatchFieldErrors, hbad]

theorem emptyDescription_mem_patch (r : Option Int) :
    SerError.emptyDescription ∈ reviewPatchFieldErrors r (some "") := by
  cases r with
  | none => simp [reviewPatchFieldErrors]
  | some x => by_cases hx : x < 1 ∨ 5 < x <;> simp [reviewPatchFieldErrors, hx]

/-- C9: A Review create or patch is accepted only if the rating lies within
1..5 and the description is non-empty; a rating outside the bounds is
rejected carrying the rating-out-of-range error, an empty description is
rejected carrying the empty-description error, and any such rejection leaves
the review table (create) and the review row (patch) unchanged. -/
theorem review_write_rating_description_bounds (user : Nat)
    (inp : ReviewCreateInput) (profiles : List ProfileRow)
    (reviews : List ReviewRow) (rev : ReviewRow) (pinp : ReviewPatchInput) :
    ((reviewCreateRun user inp profiles reviews).1 = none →
      (1 ≤ inp.rating ∧ inp.rating ≤ 5 ∧ inp.description ≠ "")) ∧
    ((inp.rating < 1 ∨ 5 < inp.rating) →
      (SerError.ratingOutOfRange
          ∈ ((reviewCreateRun user inp profiles reviews).1.getD []) ∧
       (reviewCreateRun user inp profiles reviews).2 = reviews)) ∧
    (inp.description = "" →
      (SerError.emptyDescription
          ∈ ((reviewCreateRun user inp profiles reviews).1.getD []) ∧
       (reviewCreateRun user inp profiles reviews).2 = reviews)) ∧
    ((reviewPatchRun rev pinp).1 = none →
      ((∀ x, pinp.rating = some x → 1 ≤ x ∧ x ≤ 5) ∧
       (∀ s, pinp.description = some s → s ≠ ""))) ∧
    ((∃ x, pinp.rating = some x ∧ (x < 1 ∨ 5 < x)) →
      (SerError.ratingOutOfRange ∈ ((reviewPatchRun rev pinp).1.getD []) ∧
       (reviewPatchRun rev pinp).2 = rev)) ∧
    ((∃ s, pinp.description = some s ∧ s = "") →
      (SerError.emptyDescription ∈ ((reviewPatchRun rev pinp).1.getD []) ∧
       (reviewPatchRun rev pinp).2 = rev)) := by
  refine ⟨?_, ?_, ?_, ?_, ?_, ?_⟩
  · intro hnone
    by_cases hfe : reviewFieldErrors inp.rating inp.description = []
    · exact (reviewFieldErrors_eq_nil_iff _ _).mp hfe
    · rw [reviewCreateRun_of_fieldErrors_ne user inp profiles reviews hfe] at hnone
      simp at hnone
  · intro hbad
    have hne : reviewFieldErrors inp.rating inp.description ≠ [] := by
      intro hnil
      obtain ⟨h1, h2, -⟩ := (reviewFieldErrors_eq_nil_iff _ _).mp hnil
      omega
    rw [reviewCreateRun_of_fieldErrors_ne user inp profiles reviews hne]
    exact ⟨by simpa using ratingOutOfRange_mem_create inp.rating inp.description hbad,
      rfl⟩
  · intro hd
    have hne : reviewFieldErrors inp.rating inp.description ≠ [] := by
      intro hnil
      exact ((reviewFieldErrors_eq_nil_iff _ _).mp hnil).2.2 hd
    rw [reviewCreateRun_of_fieldErrors_ne user inp profiles reviews hne]
    refine ⟨?_, rfl⟩
    rw [hd]
    simpa using emptyDescription_mem_create inp.rating
  · intro hnone
    by_cases hfe : reviewPatchFieldErrors pinp.rating pinp.description = []
    · exact (reviewPatchFieldErrors_eq_nil_iff _ _).mp hfe
    · rw [reviewPatchRun_of_fieldErrors_ne rev pinp hfe] at hnone
      simp at hnone
  · rintro ⟨x, hx, hbad⟩
    have hne : reviewPatchFieldErrors pinp.rating pinp.description ≠ [] := by
      intro hnil
      have hb := ((reviewPatchFieldErrors_eq_nil_iff _ _).mp hnil).1 x hx
      omega
    rw [reviewPatchRun_of_fieldErrors_ne rev pinp hne]
    refine ⟨?_, rfl⟩
    rw [hx]
    simpa using ratingOutOfRange_mem_patch x pinp.description hbad
  · rintro ⟨s, hs, hse⟩
    have hne : reviewPatchFieldErrors pinp.rating pinp.description ≠ [] := by
      intro hnil
      exact ((reviewPatchFieldErrors_eq_nil_iff _ _).mp hnil).2 s hs hse
    rw [reviewPatchRun_of_fieldErrors_ne rev pinp hne]
    refine ⟨?_, rfl⟩
    rw [hs, hse]
    simpa using emptyDescription_mem_patch pinp.rating

theorem review_write_rating_description_bounds_witness :
    (SerError.ratingOutOfRange
        ∈ ((reviewCreateRun 10 ⟨20, 9, "good"⟩ [⟨20, .business⟩] []).1.getD []) ∧
     (reviewCreateRun 10 ⟨20, 9, "good"⟩ [⟨20, .business⟩] []).2 = []) :=
  (review_write_rating_description_bounds 10 ⟨20, 9, "good"⟩ [⟨20, .business⟩] []
    ⟨10, 20, 4, "x"⟩ ⟨[], none, none⟩).2.1 (by decide)

end Coderr
